import Mathlib

/-!
Shallow embedding of the pet-grooming appointment backend
(`src/backend/server.js`): data model (users, services, appointments),
the authentication gate (`authenticateToken`), the login route, the
services listing, appointment creation and the status-update route.

External collaborators (the Postgres store, bcrypt, jsonwebtoken) are
modelled as the spec treats them: the store as explicit state (a `Db`
record), bcrypt as an opaque one-way function with its comparison,
jsonwebtoken as a signed-claims codec whose verification checks the
signature and the expiry instant.  Timestamps are natural numbers
(seconds); `CURRENT_TIMESTAMP` becomes an explicit `now` parameter.
-/

namespace Toelettatura

instance {ε α : Type} [DecidableEq ε] [DecidableEq α] : DecidableEq (Except ε α)
  | .error e, .error f =>
    if h : e = f then .isTrue (congrArg Except.error h)
    else .isFalse (fun hh => h (Except.error.inj hh))
  | .error _, .ok _ => .isFalse Except.noConfusion
  | .ok _, .error _ => .isFalse Except.noConfusion
  | .ok a, .ok b =>
    if h : a = b then .isTrue (congrArg Except.ok h)
    else .isFalse (fun hh => h (Except.ok.inj hh))

/-- Error taxonomy of the HTTP boundary: 400, 401, 403, 404, 500. -/
inductive ApiError where
  | badRequest
  | unauthorized
  | forbidden
  | notFound
  | internal
deriving DecidableEq, Repr

/-- HTTP status code each error is surfaced as. -/
def httpStatus : ApiError → Nat
  | .badRequest => 400
  | .unauthorized => 401
  | .forbidden => 403
  | .notFound => 404
  | .internal => 500

/-- Row of the `users` table (see the DDL in `initDatabase`). -/
structure User where
  id : Nat
  email : String
  password : String
  role : String
  fcm_token : Option String
  created_at : Nat
deriving DecidableEq, Repr

/-- Row of the `services` table.  `price` is kept in cents. -/
structure Service where
  id : Nat
  name : String
  duration : Nat
  price : Nat
  description : Option String
  active : Bool
  created_at : Nat
deriving DecidableEq, Repr

/-- Row of the `appointments` table.  `proposed_changes` holds the
JSONB payload already serialised (the route stores
`JSON.stringify(proposedChanges)`). -/
structure Appointment where
  id : Nat
  client_name : String
  client_phone : Option String
  client_email : Option String
  pet_name : String
  pet_breed : Option String
  service_id : Int
  appointment_date : String
  appointment_time : String
  notes : Option String
  status : String
  rejection_reason : Option String
  proposed_changes : Option String
  created_at : Nat
  updated_at : Nat
deriving DecidableEq, Repr

/-- The durable store: the tables the routes touch, plus the state of
the `appointments` `SERIAL` id sequence. -/
structure Db where
  users : List User
  services : List Service
  appointments : List Appointment
  nextAppointmentId : Nat
deriving DecidableEq, Repr

/-- Modelled opaque one-way hash (bcrypt.hash): an injective tagging
function standing for the hash of a password. -/
def bcryptHash (password : String) : String :=
  "bcrypt$2b$10$" ++ password

/-- Modelled bcrypt.compare: the supplied password matches a stored
hash exactly when the hash was computed from that password. -/
def bcryptCompare (password hash : String) : Bool :=
  hash == bcryptHash password

/-- Claims a signed token embeds (`jwt.sign({ userId, email }, ...)`). -/
structure JwtPayload where
  userId : Nat
  email : String
deriving DecidableEq, Repr

/-- A signed token: payload, issued-at, expiry instant, and the
signature, modelled as the signing secret itself. -/
structure Jwt where
  payload : JwtPayload
  iat : Nat
  exp : Nat
  sig : String
deriving DecidableEq, Repr

/-- Unary length marker used by the executable token codec. -/
def encNat (n : Nat) : List Char :=
  List.replicate n 'I' ++ [':']

/-- Reads back a unary length marker. -/
def readNat : List Char → Option (Nat × List Char)
  | [] => none
  | c :: cs =>
    if c = ':' then some (0, cs)
    else if c = 'I' then
      match readNat cs with
      | some (n, r) => some (n + 1, r)
      | none => none
    else none

/-- Length-prefixed string field of the token codec. -/
def encStr (s : String) : List Char :=
  encNat s.length ++ s.data

/-- Reads back a length-prefixed string field. -/
def readStr (l : List Char) : Option (String × List Char) :=
  match readNat l with
  | none => none
  | some (n, r) =>
    if n ≤ r.length then some (String.mk (r.take n), r.drop n) else none

/-- Serialises a token to the compact string the HTTP layer carries. -/
def encodeJwt (t : Jwt) : String :=
  String.mk (encNat t.payload.userId ++ encNat t.iat ++ encNat t.exp ++
    encStr t.payload.email ++ encStr t.sig)

/-- Parses a token string; `none` models a malformed token. -/
def decodeJwt (s : String) : Option Jwt :=
  (readNat s.data).bind fun p1 =>
  (readNat p1.2).bind fun p2 =>
  (readNat p2.2).bind fun p3 =>
  (readStr p3.2).bind fun p4 =>
  (readStr p4.2).bind fun p5 =>
  if p5.2 = [] then
    some { payload := { userId := p1.1, email := p4.1 },
           iat := p2.1, exp := p3.1, sig := p5.1 }
  else none

/-- Modelled jwt.sign: embeds the claims, stamps issue and expiry
instants, signs with the secret. -/
def jwtSign (p : JwtPayload) (secret : String) (now expiresIn : Nat) : Jwt :=
  { payload := p, iat := now, exp := now + expiresIn, sig := secret }

/-- Failure modes of token verification. -/
inductive JwtError where
  | malformed
  | badSignature
  | expired
deriving DecidableEq, Repr

/-- Modelled jwt.verify: parse, check the signature, check the expiry
instant against the current clock. -/
def jwtVerify (s secret : String) (now : Nat) : Except JwtError JwtPayload :=
  match decodeJwt s with
  | none => .error .malformed
  | some t =>
    if t.sig ≠ secret then .error .badSignature
    else if t.exp ≤ now then .error .expired
    else .ok t.payload

/-! ## Auth middleware (`authenticateToken`, server.js lines 29-44) -/

/-- JavaScript `s.split(' ')`: splits on each single space character,
keeping empty fragments between adjacent separators. -/
def splitOnSpace : List Char → List (List Char)
  | [] => [[]]
  | c :: cs =>
    if c = ' ' then [] :: splitOnSpace cs
    else
      match splitOnSpace cs with
      | [] => [[c]]
      | w :: ws => (c :: w) :: ws

/-- Token extraction of the middleware:
`authHeader && authHeader.split(' ')[1]`, where an absent header, an
empty header, a missing second component, or an empty second component
all leave a falsy token. -/
def extractToken : Option String → Option String
  | none => none
  | some s =>
    if s = "" then none
    else
      match splitOnSpace s.data with
      | _ :: t :: _ => if t = [] then none else some (String.mk t)
      | _ => none

/-- Outcome of the auth middleware: 401 when the token is missing,
403 when `jwt.verify` rejects it, otherwise the request proceeds with
the verified claims attached. -/
inductive GateResult where
  | missing
  | invalid
  | ok (claims : JwtPayload)
deriving DecidableEq, Repr

/-- The `authenticateToken` middleware, as a function of the signing
secret, the clock and the `Authorization` header. -/
def authenticateToken (secret : String) (now : Nat) (authHeader : Option String) :
    GateResult :=
  match extractToken authHeader with
  | none => .missing
  | some t =>
    match jwtVerify t secret now with
    | .error _ => .invalid
    | .ok p => .ok p

/-- HTTP status the middleware responds with (200 standing for the
request being passed through to the route). -/
def gateHttpStatus : GateResult → Nat
  | .missing => 401
  | .invalid => 403
  | .ok _ => 200

/-! ## Login route (`POST /api/auth/login`, server.js lines 162-198) -/

/-- Success payload of the login route: the signed token string and
the user summary `{ id, email, role }`. -/
structure LoginSuccess where
  token : String
  userId : Nat
  email : String
  role : String
deriving DecidableEq, Repr

/-- The login route: reject empty/absent fields with 400, look the
user up by exact email match, compare the password against the stored
hash, and on success sign a token valid for 24 hours. -/
def login (db : Db) (secret : String) (now : Nat) (email password : String) :
    Except ApiError LoginSuccess :=
  if email = "" || password = "" then .error .badRequest
  else
    match db.users.find? (fun u => u.email == email) with
    | none => .error .unauthorized
    | some u =>
      if bcryptCompare password u.password then
        let t := jwtSign { userId := u.id, email := u.email } secret now (24 * 3600)
        .ok { token := encodeJwt t, userId := u.id, email := u.email, role := u.role }
      else .error .unauthorized

/-! ## Services listing (`GET /api/services`, server.js lines 201-209) -/

/-- Lexicographic byte order on character lists, standing for the
store's `ORDER BY name` ascending comparison. -/
def charsLe : List Char → List Char → Bool
  | [], _ => true
  | _ :: _, [] => false
  | a :: as, b :: bs =>
    if a.toNat < b.toNat then true
    else if b.toNat < a.toNat then false
    else charsLe as bs

/-- Ascending string comparison used by the listing. -/
def strLe (a b : String) : Bool :=
  charsLe a.data b.data

/-- Ordering of the `ORDER BY name` clause, as a relation on rows. -/
def serviceNameLe (a b : Service) : Prop :=
  strLe a.name b.name = true

instance : DecidableRel serviceNameLe := fun a b =>
  inferInstanceAs (Decidable (strLe a.name b.name = true))

/-- The services route: `SELECT * FROM services WHERE active = true
ORDER BY name`. -/
def listServices (db : Db) : List Service :=
  List.insertionSort serviceNameLe (db.services.filter (fun s => s.active))

/-! ## Appointment creation (`POST /api/appointments`, lines 227-260) -/

/-- Request body of the creation route; `none` models an absent
(undefined/null) JSON field. -/
structure AppointmentRequest where
  clientName : Option String
  clientPhone : Option String
  clientEmail : Option String
  petName : Option String
  petBreed : Option String
  serviceId : Option Int
  appointmentDate : Option String
  appointmentTime : Option String
  notes : Option String
deriving DecidableEq, Repr

/-- JavaScript truthiness of an optional string field: absent and
empty are both falsy. -/
def truthyStr : Option String → Bool
  | none => false
  | some s => !(s == "")

/-- JavaScript truthiness of an optional numeric field: absent and
zero are both falsy. -/
def truthyInt : Option Int → Bool
  | none => false
  | some n => !(n == 0)

/-- The creation route: the five required fields are checked for
truthiness before any store access; the inserted row takes the schema
defaults `status = 'pending'`, null `rejection_reason`, null
`proposed_changes`, and both timestamps from the store clock, with the
next value of the id sequence. -/
def createAppointment (db : Db) (r : AppointmentRequest) (now : Nat) :
    Except ApiError Appointment × Db :=
  if !truthyStr r.clientName || !truthyStr r.petName || !truthyInt r.serviceId ||
      !truthyStr r.appointmentDate || !truthyStr r.appointmentTime then
    (.error .badRequest, db)
  else
    let a : Appointment :=
      { id := db.nextAppointmentId
        client_name := r.clientName.getD ""
        client_phone := r.clientPhone
        client_email := r.clientEmail
        pet_name := r.petName.getD ""
        pet_breed := r.petBreed
        service_id := r.serviceId.getD 0
        appointment_date := r.appointmentDate.getD ""
        appointment_time := r.appointmentTime.getD ""
        notes := r.notes
        status := "pending"
        rejection_reason := none
        proposed_changes := none
        created_at := now
        updated_at := now }
    (.ok a,
      { db with
          appointments := db.appointments ++ [a]
          nextAppointmentId := db.nextAppointmentId + 1 })

/-! ## Status update (`PUT /api/appointments/:id/status`, lines 262-283) -/

/-- Effect of the `UPDATE ... SET` clause on one matching row: the
four listed columns are assigned, every other column is kept. -/
def updateRow (a : Appointment) (st : String) (rr pc : Option String) (now : Nat) :
    Appointment :=
  { a with status := st, rejection_reason := rr, proposed_changes := pc,
           updated_at := now }

/-- The status-update route: one `UPDATE ... WHERE id = $4 RETURNING *`
statement; when no row matches, the route answers 404, otherwise it
returns the first updated row. `rr`/`pc` are the request's
`rejectionReason`/`proposedChanges`, `none` when omitted (stored as
SQL NULL). -/
def updateStatus (db : Db) (id : Nat) (st : String) (rr pc : Option String)
    (now : Nat) : Except ApiError Appointment × Db :=
  let rows := (db.appointments.filter (fun a => a.id == id)).map
    (fun a => updateRow a st rr pc now)
  let db' : Db :=
    { db with
        appointments := db.appointments.map
          (fun a => if a.id == id then updateRow a st rr pc now else a) }
  match rows with
  | [] => (.error .notFound, db')
  | b :: _ => (.ok b, db')

/-! ## Frame of the status update -/

/-- Relation between a stored appointment row and the corresponding
row after a status update: rows with another id are untouched; the
matching row has exactly status, rejection_reason, proposed_changes
and updated_at reassigned (updated_at not going backwards), every
other column kept. -/
def UpdateFrame (id : Nat) (st : String) (rr pc : Option String) (now : Nat)
    (a c : Appointment) : Prop :=
  (a.id ≠ id → c = a) ∧
  (a.id = id →
    c.status = st ∧ c.rejection_reason = rr ∧ c.proposed_changes = pc ∧
    c.updated_at = now ∧ a.updated_at ≤ c.updated_at ∧
    c.id = a.id ∧ c.client_name = a.client_name ∧ c.client_phone = a.client_phone ∧
    c.client_email = a.client_email ∧ c.pet_name = a.pet_name ∧
    c.pet_breed = a.pet_breed ∧ c.service_id = a.service_id ∧
    c.appointment_date = a.appointment_date ∧
    c.appointment_time = a.appointment_time ∧ c.notes = a.notes ∧
    c.created_at = a.created_at)

/-! ## Concrete fixtures used by witnesses and counterexamples -/

/-- Active catalog row (one of the seeded services). -/
def serviceBagno : Service :=
  { id := 1, name := "Bagno e Spazzolatura", duration := 60, price := 2500,
    description := some "Bagno completo", active := true, created_at := 0 }

/-- Another active catalog row. -/
def serviceTaglio : Service :=
  { id := 2, name := "Taglio Completo", duration := 90, price := 4000,
    description := none, active := true, created_at := 0 }

/-- Deactivated catalog row. -/
def serviceSpento : Service :=
  { id := 3, name := "Antipulci", duration := 30, price := 1500,
    description := none, active := false, created_at := 0 }

/-- The seeded administrator account. -/
def adminUser : User :=
  { id := 1, email := "admin@toelettatura.com", password := bcryptHash "admin123",
    role := "admin", fcm_token := none, created_at := 0 }

/-- A stored appointment carrying a rejection reason and a proposed
change. -/
def apptFido : Appointment :=
  { id := 1, client_name := "Mario Rossi", client_phone := some "333",
    client_email := none, pet_name := "Fido", pet_breed := some "Labrador",
    service_id := 1, appointment_date := "2024-06-01", appointment_time := "10:00",
    notes := none, status := "pending", rejection_reason := some "vecchio motivo",
    proposed_changes := some "data alternativa", created_at := 1, updated_at := 3 }

/-- A second stored appointment. -/
def apptLuna : Appointment :=
  { id := 2, client_name := "Anna Bianchi", client_phone := none,
    client_email := some "anna@esempio.it", pet_name := "Luna", pet_breed := none,
    service_id := 2, appointment_date := "2024-06-02", appointment_time := "11:00",
    notes := some "niente", status := "confirmed", rejection_reason := none,
    proposed_changes := none, created_at := 2, updated_at := 4 }

/-- A populated store. -/
def sampleDb : Db :=
  { users := [adminUser],
    services := [serviceTaglio, serviceBagno, serviceSpento],
    appointments := [apptFido, apptLuna],
    nextAppointmentId := 3 }

/-- A complete creation request. -/
def sampleRequest : AppointmentRequest :=
  { clientName := some "Mario Rossi", clientPhone := none, clientEmail := none,
    petName := some "Fido", petBreed := none, serviceId := some 1,
    appointmentDate := some "2024-06-01", appointmentTime := some "10:00",
    notes := none }

/-- A user whose stored hash is the hash of the empty password. -/
def emptyPwUser : User :=
  { id := 7, email := "vuoto@esempio.it", password := bcryptHash "",
    role := "admin", fcm_token := none, created_at := 0 }

/-- Store containing only `emptyPwUser`. -/
def emptyPwDb : Db :=
  { users := [emptyPwUser], services := [], appointments := [],
    nextAppointmentId := 1 }

/-! ## Token codec roundtrip -/

theorem readNat_encNat (n : Nat) (rest : List Char) :
    readNat (encNat n ++ rest) = some (n, rest) := by
  induction n with
  | zero => simp [encNat, readNat]
  | succ k ih =>
    have h : encNat (k + 1) ++ rest = 'I' :: (encNat k ++ rest) := by
      simp [encNat, List.replicate_succ]
    rw [h]
    simp [readNat, ih]

theorem readStr_encStr (s : String) (rest : List Char) :
    readStr (encStr s ++ rest) = some (s, rest) := by
  have hlen : s.length = s.data.length := rfl
  have hmk : String.mk s.data = s := by cases s; rfl
  simp only [encStr, List.append_assoc, readStr, readNat_encNat]
  rw [hlen, if_pos (by simp), List.take_left, List.drop_left, hmk]

theorem readStr_encStr_nil (s : String) : readStr (encStr s) = some (s, []) := by
  have h := readStr_encStr s []
  rwa [List.append_nil] at h

theorem decodeJwt_encodeJwt (t : Jwt) : decodeJwt (encodeJwt t) = some t := by
  obtain ⟨⟨uid, em⟩, ia, ex, sg⟩ := t
  have hdata : (encodeJwt ⟨⟨uid, em⟩, ia, ex, sg⟩).data =
      encNat uid ++ (encNat ia ++ (encNat ex ++ (encStr em ++ encStr sg))) := by
    simp [encodeJwt, List.append_assoc]
  simp [decodeJwt, hdata, readNat_encNat, readStr_encStr, readStr_encStr_nil]

/-! ## The listing order is total and transitive -/

theorem charsLe_total (xs : List Char) : ∀ ys,
    charsLe xs ys = true ∨ charsLe ys xs = true := by
  induction xs with
  | nil => intro ys; left; simp [charsLe]
  | cons x xs ih =>
    intro ys
    cases ys with
    | nil => right; simp [charsLe]
    | cons y ys =>
      simp only [charsLe]
      by_cases hxy : x.toNat < y.toNat
      · left; simp [hxy]
      · by_cases hyx : y.toNat < x.toNat
        · right; simp [hyx]
        · rcases ih ys with h | h
          · left; simp [hxy, hyx, h]
          · right; simp [hxy, hyx, h]

theorem charsLe_trans (xs : List Char) : ∀ ys zs,
    charsLe xs ys = true → charsLe ys zs = true → charsLe xs zs = true := by
  induction xs with
  | nil => intro ys zs _ _; simp [charsLe]
  | cons x xs ih =>
    intro ys zs h1 h2
    cases ys with
    | nil => simp [charsLe] at h1
    | cons y ys =>
      cases zs with
      | nil => simp [charsLe] at h2
      | cons z zs =>
        simp only [charsLe] at h1 h2 ⊢
        by_cases hxy : x.toNat < y.toNat
        · by_cases hyz : y.toNat < z.toNat
          · have hxz : x.toNat < z.toNat := Nat.lt_trans hxy hyz
            simp [hxz]
          · by_cases hzy : z.toNat < y.toNat
            · simp [hyz, hzy] at h2
            · have heq : y.toNat = z.toNat :=
                Nat.le_antisymm (Nat.le_of_not_lt hzy) (Nat.le_of_not_lt hyz)
              have hxz : x.toNat < z.toNat := heq ▸ hxy
              simp [hxz]
        · by_cases hyx : y.toNat < x.toNat
          · simp [hxy, hyx] at h1
          · have heq1 : x.toNat = y.toNat :=
              Nat.le_antisymm (Nat.le_of_not_lt hyx) (Nat.le_of_not_lt hxy)
            simp only [hxy, hyx, if_neg, if_false] at h1
            by_cases hyz : y.toNat < z.toNat
            · have hxz : x.toNat < z.toNat := heq1 ▸ hyz
              simp [hxz]
            · by_cases hzy : z.toNat < y.toNat
              · simp [hyz, hzy] at h2
              · have heq2 : y.toNat = z.toNat :=
                  Nat.le_antisymm (Nat.le_of_not_lt hzy) (Nat.le_of_not_lt hyz)
                simp only [hyz, hzy, if_neg, if_false] at h2
                have hxz : ¬ x.toNat < z.toNat := by omega
                have hzx : ¬ z.toNat < x.toNat := by omega
                simp only [hxz, hzx, if_neg, if_false]
                exact ih ys zs h1 h2

instance : IsTotal Service serviceNameLe :=
  ⟨fun a b => charsLe_total a.name.data b.name.data⟩

instance : IsTrans Service serviceNameLe :=
  ⟨fun a b c => charsLe_trans a.name.data b.name.data c.name.data⟩

/-! ## Header splitting -/

theorem splitOnSpace_ne_nil (l : List Char) : splitOnSpace l ≠ [] := by
  cases l with
  | nil => simp [splitOnSpace]
  | cons c cs =>
    by_cases hc : c = ' '
    · simp [splitOnSpace, hc]
    · cases hs : splitOnSpace cs with
      | nil => simp [splitOnSpace, hc, hs]
      | cons w ws => simp [splitOnSpace, hc, hs]

theorem splitOnSpace_no_space (l : List Char) (h : ' ' ∉ l) :
    splitOnSpace l = [l] := by
  induction l with
  | nil => rfl
  | cons c cs ih =>
    have hc : ¬ c = ' ' := fun hcc => h (hcc ▸ List.mem_cons_self c cs)
    have hcs : ' ' ∉ cs := fun hm => h (List.mem_cons_of_mem c hm)
    simp [splitOnSpace, hc, ih hcs]

theorem splitOnSpace_append (l₁ : List Char) (l₂ : List Char) (h : ' ' ∉ l₁) :
    splitOnSpace (l₁ ++ ' ' :: l₂) = l₁ :: splitOnSpace l₂ := by
  induction l₁ with
  | nil => simp [splitOnSpace]
  | cons c cs ih =>
    have hc : ¬ c = ' ' := fun hcc => h (hcc ▸ List.mem_cons_self c cs)
    have hcs : ' ' ∉ cs := fun hm => h (List.mem_cons_of_mem c hm)
    have hne := splitOnSpace_ne_nil l₂
    cases hs : splitOnSpace (cs ++ ' ' :: l₂) with
    | nil => rw [ih hcs] at hs; simp at hs
    | cons w ws =>
      rw [ih hcs] at hs
      cases hs
      simp [splitOnSpace, hc, ih hcs]

theorem extractToken_scheme (scheme t : String) (h : ' ' ∉ scheme.data) :
    extractToken (some (scheme ++ " " ++ t)) =
      (match splitOnSpace t.data with
       | w :: _ => if w = [] then none else some (String.mk w)
       | [] => none) := by
  have hdata : (scheme ++ " " ++ t).data = scheme.data ++ ' ' :: t.data := by
    simp [String.data_append]
  have hne : ¬ (scheme ++ " " ++ t) = "" := by
    intro hh
    have := congrArg String.data hh
    rw [hdata] at this
    simp at this
  rw [extractToken, if_neg hne, hdata, splitOnSpace_append _ _ h]
  cases hs : splitOnSpace t.data with
  | nil => exact absurd hs (splitOnSpace_ne_nil _)
  | cons w ws => simp

/-! ## Verification window of a signed token -/

theorem jwtVerify_encodeJwt_sign (p : JwtPayload) (secret : String)
    (now win t2 : Nat) :
    jwtVerify (encodeJwt (jwtSign p secret now win)) secret t2 =
      .ok p ↔ t2 < now + win := by
  rw [jwtVerify, decodeJwt_encodeJwt]
  by_cases hle : now + win ≤ t2
  · simp [jwtSign, hle]
  · simp only [jwtSign, hle, if_neg, if_false, ite_false]
    constructor
    · intro _; omega
    · intro _; simp [hle]

/-! ## Claim C4: creation with all required fields present -/

/-- C4: whenever the required fields (client name, pet name, service
reference, date, time) are all present (truthy), `createAppointment`
succeeds; the returned stored record has status `pending`, null
rejection_reason, null proposed_changes, and a generated identifier
distinct from the id of every prior record; the new record is appended
to the store. -/
theorem createAppointment_required_present_ok (db : Db) (r : AppointmentRequest)
    (now : Nat)
    (h1 : truthyStr r.clientName = true) (h2 : truthyStr r.petName = true)
    (h3 : truthyInt r.serviceId = true) (h4 : truthyStr r.appointmentDate = true)
    (h5 : truthyStr r.appointmentTime = true)
    (hids : ∀ a ∈ db.appointments, a.id < db.nextAppointmentId) :
    ∃ a db2, createAppointment db r now = (.ok a, db2) ∧
      a.status = "pending" ∧ a.rejection_reason = none ∧
      a.proposed_changes = none ∧
      (∀ b ∈ db.appointments, b.id ≠ a.id) ∧
      db2.appointments = db.appointments ++ [a] := by
  rw [createAppointment, if_neg (by simp [h1, h2, h3, h4, h5])]
  refine ⟨_, _, rfl, rfl, rfl, rfl, ?_, rfl⟩
  intro b hb
  exact Nat.ne_of_lt (hids b hb)

/-- Witness for C4: a concrete complete request against a populated
store. -/
theorem createAppointment_required_present_ok_witness :
    truthyStr sampleRequest.clientName = true ∧
    (∀ a ∈ sampleDb.appointments, a.id < sampleDb.nextAppointmentId) ∧
    (∃ a db2, createAppointment sampleDb sampleRequest 9 = (.ok a, db2) ∧
      a.status = "pending" ∧ a.rejection_reason = none ∧
      a.proposed_changes = none ∧
      (∀ b ∈ sampleDb.appointments, b.id ≠ a.id) ∧
      db2.appointments = sampleDb.appointments ++ [a]) :=
  ⟨by decide, by decide,
    createAppointment_required_present_ok sampleDb sampleRequest 9
      (by decide) (by decide) (by decide) (by decide) (by decide) (by decide)⟩

/-! ## Claim C5: creation with a missing required field -/

/-- C5: whenever any required field (client name, pet name, service
reference, date, or time) is missing (falsy), `createAppointment`
fails with BadRequest and the returned store is the input store,
unchanged — in the source the check precedes the store statement, so
no store access is attempted. -/
theorem createAppointment_missing_field_badRequest (db : Db)
    (r : AppointmentRequest) (now : Nat)
    (h : truthyStr r.clientName = false ∨ truthyStr r.petName = false ∨
      truthyInt r.serviceId = false ∨ truthyStr r.appointmentDate = false ∨
      truthyStr r.appointmentTime = false) :
    createAppointment db r now = (.error .badRequest, db) := by
  rcases h with h | h | h | h | h <;> simp [createAppointment, h]

/-- Witness for C5: a request lacking the pet name. -/
theorem createAppointment_missing_field_badRequest_witness :
    truthyStr ({ sampleRequest with petName := none } : AppointmentRequest).petName
      = false ∧
    createAppointment sampleDb { sampleRequest with petName := none } 9 =
      (.error .badRequest, sampleDb) :=
  ⟨by decide,
    createAppointment_missing_field_badRequest sampleDb
      { sampleRequest with petName := none } 9 (Or.inr (Or.inl (by decide)))⟩

/-! ## Claim C6: status update on a nonexistent id -/

/-- C6: when no stored appointment carries the requested id,
`updateStatus` fails with NotFound and the store is unchanged. -/
theorem updateStatus_nonexistent_notFound (db : Db) (id : Nat) (st : String)
    (rr pc : Option String) (now : Nat)
    (h : ∀ a ∈ db.appointments, a.id ≠ id) :
    updateStatus db id st rr pc now = (.error .notFound, db) := by
  have hfilter : db.appointments.filter (fun a => a.id == id) = [] := by
    rw [List.filter_eq_nil_iff]
    intro a ha
    simp [h a ha]
  have hmap : db.appointments.map
      (fun a => if a.id == id then updateRow a st rr pc now else a) =
      db.appointments.map (fun a => a) :=
    List.map_congr_left (fun a ha => by simp [h a ha])
  rw [updateStatus]
  simp only [hfilter, hmap, List.map_nil, List.map_id_fun']
  rfl

/-- Witness for C6: id 99 references no stored appointment. -/
theorem updateStatus_nonexistent_notFound_witness :
    (∀ a ∈ sampleDb.appointments, a.id ≠ 99) ∧
    updateStatus sampleDb 99 "confirmed" none none 7 =
      (.error .notFound, sampleDb) :=
  ⟨by decide,
    updateStatus_nonexistent_notFound sampleDb 99 "confirmed" none none 7
      (by decide)⟩

/-! ## Claim C9: omitted optional fields are overwritten with null -/

/-- C9: updating the status of an existing appointment with
rejectionReason and proposedChanges omitted from the request stores
NULL in both columns: the returned record and every stored row with
that id end with no rejection reason and no proposed changes,
whatever was stored there before. -/
theorem updateStatus_omitted_fields_cleared (db : Db) (id : Nat) (st : String)
    (now : Nat) (a0 : Appointment) (hmem : a0 ∈ db.appointments)
    (hid : a0.id = id) :
    ∃ b db2, updateStatus db id st none none now = (.ok b, db2) ∧
      b.rejection_reason = none ∧ b.proposed_changes = none ∧
      ∀ c ∈ db2.appointments, c.id = id →
        c.rejection_reason = none ∧ c.proposed_changes = none := by
  cases hfe : db.appointments.filter (fun a => a.id == id) with
  | nil =>
    rw [List.filter_eq_nil_iff] at hfe
    exact absurd (by simp [hid]) (hfe a0 hmem)
  | cons hd tl =>
    refine ⟨updateRow hd st none none now,
      Db.mk db.users db.services
        (db.appointments.map
          (fun a => if a.id == id then updateRow a st none none now else a))
        db.nextAppointmentId,
      ?_, rfl, rfl, ?_⟩
    · rw [updateStatus]
      simp only [hfe, List.map_cons]
    · intro c hc hcid
      simp only [List.mem_map] at hc
      obtain ⟨a, _, rfl⟩ := hc
      by_cases ha : a.id == id
      · simp [ha, updateRow]
      · rw [if_neg (by simpa using ha)] at hcid ⊢
        exact absurd hcid (by simpa using ha)

/-- Witness for C9: `apptFido` carries a stored rejection reason and
proposed changes; the update with both omitted clears them. -/
theorem updateStatus_omitted_fields_cleared_witness :
    apptFido ∈ sampleDb.appointments ∧ apptFido.id = 1 ∧
    apptFido.rejection_reason = some "vecchio motivo" ∧
    apptFido.proposed_changes = some "data alternativa" ∧
    (∃ b db2, updateStatus sampleDb 1 "rejected" none none 7 = (.ok b, db2) ∧
      b.rejection_reason = none ∧ b.proposed_changes = none ∧
      ∀ c ∈ db2.appointments, c.id = 1 →
        c.rejection_reason = none ∧ c.proposed_changes = none) :=
  ⟨by decide, by decide, by decide, by decide,
    updateStatus_omitted_fields_cleared sampleDb 1 "rejected" 7 apptFido
      (by decide) (by decide)⟩

/-! ## Claim C1: the status update sets exactly four fields -/

/-- C1: on an existing appointment id, `updateStatus` succeeds in one
store statement and, row by row (`List.Forall₂`), sets exactly status
(the caller-supplied string stored verbatim, unvalidated — `st` is
universally quantified), rejection_reason, proposed_changes and
updated_at of the matching row, with updated_at not going backwards
when the store clock has not (hypothesis `hclock`), and leaves every
other field and every other appointment unchanged. -/
theorem updateStatus_exact_fields (db : Db) (id : Nat) (st : String)
    (rr pc : Option String) (now : Nat) (a0 : Appointment)
    (hmem : a0 ∈ db.appointments) (hid : a0.id = id)
    (hclock : ∀ a ∈ db.appointments, a.updated_at ≤ now) :
    ∃ b db2, updateStatus db id st rr pc now = (.ok b, db2) ∧
      b.status = st ∧ b.rejection_reason = rr ∧ b.proposed_changes = pc ∧
      b.updated_at = now ∧
      List.Forall₂ (UpdateFrame id st rr pc now)
        db.appointments db2.appointments := by
  cases hfe : db.appointments.filter (fun a => a.id == id) with
  | nil =>
    rw [List.filter_eq_nil_iff] at hfe
    exact absurd (by simp [hid]) (hfe a0 hmem)
  | cons hd tl =>
    refine ⟨updateRow hd st rr pc now,
      Db.mk db.users db.services
        (db.appointments.map
          (fun a => if a.id == id then updateRow a st rr pc now else a))
        db.nextAppointmentId,
      ?_, rfl, rfl, rfl, rfl, ?_⟩
    · rw [updateStatus]
      simp only [hfe, List.map_cons]
    · have hgen : ∀ l : List Appointment, (∀ a ∈ l, a.updated_at ≤ now) →
          List.Forall₂ (UpdateFrame id st rr pc now) l
            (l.map (fun a => if a.id == id then updateRow a st rr pc now else a)) := by
        intro l
        induction l with
        | nil => intro _; exact List.Forall₂.nil
        | cons x xs ih =>
          intro hcl
          refine List.Forall₂.cons ?_
            (ih (fun a ha => hcl a (List.mem_cons_of_mem x ha)))
          by_cases hx : x.id = id
          · have hbeq : (x.id == id) = true := by simp [hx]
            refine ⟨fun hne => absurd hx hne, fun _ => ?_⟩
            simp [hbeq, updateRow]
            exact hcl x (List.mem_cons_self x xs)
          · have hbeq : (x.id == id) = false := by simp [hx]
            refine ⟨fun _ => ?_, fun heq => absurd heq hx⟩
            simp [hbeq]
      exact hgen db.appointments hclock

/-- Witness for C1: updating `apptFido` (id 1) to `confirmed` with a
reason and a counter-proposal, at clock 7. -/
theorem updateStatus_exact_fields_witness :
    apptFido ∈ sampleDb.appointments ∧ apptFido.id = 1 ∧
    (∀ a ∈ sampleDb.appointments, a.updated_at ≤ 7) ∧
    (∃ b db2,
      updateStatus sampleDb 1 "confirmed" (some "in ritardo") (some "nuova data") 7
        = (.ok b, db2) ∧
      b.status = "confirmed" ∧ b.rejection_reason = some "in ritardo" ∧
      b.proposed_changes = some "nuova data" ∧ b.updated_at = 7 ∧
      List.Forall₂ (UpdateFrame 1 "confirmed" (some "in ritardo") (some "nuova data") 7)
        sampleDb.appointments db2.appointments) :=
  ⟨by decide, by decide, by decide,
    updateStatus_exact_fields sampleDb 1 "confirmed" (some "in ritardo")
      (some "nuova data") 7 apptFido (by decide) (by decide) (by decide)⟩

/-! ## Claim C8: listing returns exactly the active services, sorted -/

/-- C8: for every store state, `listServices` returns exactly the
services whose active flag is true (a permutation of the active
filter, so no inactive service ever appears), sorted by name
ascending, and returns the empty sequence — not an error — when no
service is active. -/
theorem listServices_exactly_active_sorted (db : Db) :
    (∀ s ∈ listServices db, s.active = true) ∧
    List.Sorted serviceNameLe (listServices db) ∧
    (listServices db).Perm (db.services.filter (fun s => s.active)) ∧
    ((∀ s ∈ db.services, s.active = false) → listServices db = []) := by
  refine ⟨?_, ?_, ?_, ?_⟩
  · intro s hs
    have hperm := List.perm_insertionSort serviceNameLe
      (db.services.filter (fun s => s.active))
    have hmem := hperm.mem_iff.1 hs
    exact (List.mem_filter.1 hmem).2
  · exact List.sorted_insertionSort serviceNameLe _
  · exact List.perm_insertionSort _ _
  · intro h
    have hfil : db.services.filter (fun s => s.active) = [] := by
      rw [List.filter_eq_nil_iff]
      intro a ha
      simp [h a ha]
    rw [listServices, hfil]
    rfl

/-- Witness for C8: the sample store holds two active services and a
deactivated one. -/
theorem listServices_exactly_active_sorted_witness :
    (∀ s ∈ listServices sampleDb, s.active = true) ∧
    List.Sorted serviceNameLe (listServices sampleDb) ∧
    (listServices sampleDb).Perm (sampleDb.services.filter (fun s => s.active)) ∧
    ((∀ s ∈ sampleDb.services, s.active = false) → listServices sampleDb = []) :=
  listServices_exactly_active_sorted sampleDb

/-! ## Claim C2: login with matching credentials -/

/-- C2 (amended): for every stored user looked up by email and every
non-empty password matching the stored hash (the supplied email being
non-empty as supplied), `login` succeeds with a token that `verify`
accepts, whose embedded claims are the identifier and email of the
user looked up by that email, and whose validity window is exactly 24
hours from issuance: verification at clock `t2` succeeds precisely
when `t2 < now + 24 * 3600`. -/
theorem login_valid_credentials_token (db : Db) (secret : String) (now : Nat)
    (email password : String) (u : User)
    (hfind : db.users.find? (fun v => v.email == email) = some u)
    (hpw : bcryptCompare password u.password = true)
    (hemail : email ≠ "") (hpass : password ≠ "") :
    ∃ s : LoginSuccess, login db secret now email password = .ok s ∧
      s.userId = u.id ∧ s.email = u.email ∧ s.role = u.role ∧
      decodeJwt s.token =
        some (jwtSign { userId := u.id, email := u.email } secret now (24 * 3600)) ∧
      (∀ t2, jwtVerify s.token secret t2 =
        .ok { userId := u.id, email := u.email } ↔ t2 < now + 24 * 3600) := by
  rw [login, if_neg (by simp [hemail, hpass]), hfind]
  dsimp only
  rw [hpw, if_pos rfl]
  refine ⟨_, rfl, rfl, rfl, rfl, decodeJwt_encodeJwt _, ?_⟩
  intro t2
  exact jwtVerify_encodeJwt_sign { userId := u.id, email := u.email } secret
    now (24 * 3600) t2

/-- Witness for C2: the seeded admin credentials, issued at clock 5. -/
theorem login_valid_credentials_token_witness :
    sampleDb.users.find? (fun v => v.email == "admin@toelettatura.com")
      = some adminUser ∧
    bcryptCompare "admin123" adminUser.password = true ∧
    (∃ s : LoginSuccess,
      login sampleDb "segreto" 5 "admin@toelettatura.com" "admin123" = .ok s ∧
      s.userId = adminUser.id ∧ s.email = adminUser.email ∧
      s.role = adminUser.role ∧
      decodeJwt s.token = some (jwtSign
        { userId := adminUser.id, email := adminUser.email } "segreto" 5 (24 * 3600)) ∧
      (∀ t2, jwtVerify s.token "segreto" t2 =
        .ok { userId := adminUser.id, email := adminUser.email } ↔
          t2 < 5 + 24 * 3600)) :=
  ⟨by decide, by decide,
    login_valid_credentials_token sampleDb "segreto" 5 "admin@toelettatura.com"
      "admin123" adminUser (by decide) (by decide) (by decide) (by decide)⟩

/-- Counterexample to C2 as stated: a store may hold a user whose
stored hash is the hash of the empty password; that password matches
the hash, yet `login` answers BadRequest (the falsy-field guard fires
before the credential check), so it does not succeed. -/
theorem login_empty_matching_password_rejected :
    emptyPwDb.users.find? (fun v => v.email == "vuoto@esempio.it")
      = some emptyPwUser ∧
    bcryptCompare "" emptyPwUser.password = true ∧
    login emptyPwDb "segreto" 5 "vuoto@esempio.it" "" = .error .badRequest ∧
    (login emptyPwDb "segreto" 5 "vuoto@esempio.it" "").isOk = false := by
  refine ⟨by decide, by decide, by decide, by decide⟩

/-! ## Claim C7: login with unknown email or wrong password -/

/-- C7 (amended): for non-empty email and password, `login` fails with
Unauthorized — producing no token — both when no stored user carries
the supplied email and when the first user found under that email has
a stored hash the supplied password does not match. -/
theorem login_bad_credentials_unauthorized (db : Db) (secret : String)
    (now : Nat) (email password : String)
    (hemail : email ≠ "") (hpass : password ≠ "") :
    (db.users.find? (fun v => v.email == email) = none →
      login db secret now email password = .error .unauthorized) ∧
    (∀ u, db.users.find? (fun v => v.email == email) = some u →
      bcryptCompare password u.password = false →
      login db secret now email password = .error .unauthorized) := by
  constructor
  · intro hfind
    rw [login, if_neg (by simp [hemail, hpass]), hfind]
  · intro u hfind hpw
    rw [login, if_neg (by simp [hemail, hpass]), hfind]
    dsimp only
    rw [hpw]
    simp

/-- Witness for C7: an unknown email, and the admin email with a wrong
password. -/
theorem login_bad_credentials_unauthorized_witness :
    sampleDb.users.find? (fun v => v.email == "ignoto@esempio.it") = none ∧
    login sampleDb "segreto" 5 "ignoto@esempio.it" "qualcosa"
      = .error .unauthorized ∧
    sampleDb.users.find? (fun v => v.email == "admin@toelettatura.com")
      = some adminUser ∧
    bcryptCompare "sbagliata" adminUser.password = false ∧
    login sampleDb "segreto" 5 "admin@toelettatura.com" "sbagliata"
      = .error .unauthorized :=
  ⟨by decide,
    (login_bad_credentials_unauthorized sampleDb "segreto" 5 "ignoto@esempio.it"
      "qualcosa" (by decide) (by decide)).1 (by decide),
    by decide, by decide,
    (login_bad_credentials_unauthorized sampleDb "segreto" 5
      "admin@toelettatura.com" "sbagliata" (by decide) (by decide)).2 adminUser
      (by decide) (by decide)⟩

/-- Counterexample to C7 as stated: the empty email is not present in
the credential store, yet `login` answers BadRequest, not
Unauthorized. -/
theorem login_empty_email_badRequest :
    sampleDb.users.find? (fun v => v.email == "") = none ∧
    login sampleDb "segreto" 5 "" "qualcosa" = .error .badRequest ∧
    ApiError.badRequest ≠ ApiError.unauthorized := by
  refine ⟨by decide, by decide, by decide⟩

/-! ## Claim C3: status codes of the verify gate -/

/-- C3 (amended): the gate fails with Unauthorized (401) when the
token is missing, and with Forbidden (403) when a token was extracted
but is malformed, expired, or carries an invalid signature (the three
constructors of `JwtError`). -/
theorem authenticateToken_error_statuses (secret : String) (now : Nat)
    (header : Option String) :
    (extractToken header = none →
      authenticateToken secret now header = .missing ∧
      gateHttpStatus (authenticateToken secret now header) = 401) ∧
    (∀ t e, extractToken header = some t → jwtVerify t secret now = .error e →
      authenticateToken secret now header = .invalid ∧
      gateHttpStatus (authenticateToken secret now header) = 403) := by
  constructor
  · intro h
    simp [authenticateToken, h, gateHttpStatus]
  · intro t e ht he
    simp [authenticateToken, ht, he, gateHttpStatus]

/-- Witness for C3 (amended): an absent header, and a malformed token
under a scheme word. -/
theorem authenticateToken_error_statuses_witness :
    (extractToken none = none ∧
      authenticateToken "segreto" 0 none = .missing ∧
      gateHttpStatus (authenticateToken "segreto" 0 none) = 401) ∧
    (extractToken (some "Bearer spazzatura") = some "spazzatura" ∧
      jwtVerify "spazzatura" "segreto" 0 = .error .malformed ∧
      authenticateToken "segreto" 0 (some "Bearer spazzatura") = .invalid ∧
      gateHttpStatus (authenticateToken "segreto" 0 (some "Bearer spazzatura"))
        = 403) :=
  ⟨⟨by decide,
    (authenticateToken_error_statuses "segreto" 0 none).1 (by decide)⟩,
   ⟨by decide, by decide,
    (authenticateToken_error_statuses "segreto" 0 (some "Bearer spazzatura")).2
      "spazzatura" .malformed (by decide) (by decide)⟩⟩

/-- Counterexample to C3 as stated: with the token missing the gate
answers 401 (Unauthorized, `Token di accesso richiesto`), not 403
(Forbidden), so the Forbidden outcome does not cover the
missing-token case. -/
theorem authenticateToken_missing_not_forbidden :
    authenticateToken "segreto" 0 none = .missing ∧
    gateHttpStatus (authenticateToken "segreto" 0 none) = 401 ∧
    gateHttpStatus (authenticateToken "segreto" 0 none) ≠ 403 := by
  refine ⟨by decide, by decide, by decide⟩

/-! ## Claim C10: the gate never checks the scheme word -/

/-- C10: the middleware takes the second space-separated component of
the Authorization header and never examines the scheme word: for any
scheme word without a space, the gate treats a header of the form
`scheme ++ " " ++ t` exactly as `"Bearer" ++ " " ++ t`; a header with
no second component — the bare word `Bearer`, or a bare token with no
scheme — is treated as a missing token. -/
theorem authenticateToken_ignores_scheme (secret : String) (now : Nat)
    (scheme t : String) (hs : ' ' ∉ scheme.data) :
    authenticateToken secret now (some (scheme ++ " " ++ t)) =
      authenticateToken secret now (some ("Bearer" ++ " " ++ t)) ∧
    authenticateToken secret now (some "Bearer") = .missing ∧
    (' ' ∉ t.data → authenticateToken secret now (some t) = .missing) := by
  refine ⟨?_, ?_, ?_⟩
  · rw [authenticateToken, authenticateToken, extractToken_scheme scheme t hs,
      extractToken_scheme "Bearer" t (by decide)]
  · have h : extractToken (some "Bearer") = none := by decide
    rw [authenticateToken, h]
  · intro ht
    by_cases hempty : t = ""
    · rw [authenticateToken]
      subst hempty
      rfl
    · have h : extractToken (some t) = none := by
        rw [extractToken, if_neg hempty, splitOnSpace_no_space t.data ht]
      rw [authenticateToken, h]

/-- Witness for C10: a valid token accepted under the `Basic` scheme
exactly as under `Bearer`, and two headers with no second component
treated as missing. -/
theorem authenticateToken_ignores_scheme_witness :
    (' ' ∉ ("Basic" : String).data) ∧
    (authenticateToken "segreto" 6
        (some ("Basic" ++ " " ++ encodeJwt (jwtSign ⟨1, "a"⟩ "segreto" 5 7))) =
      authenticateToken "segreto" 6
        (some ("Bearer" ++ " " ++ encodeJwt (jwtSign ⟨1, "a"⟩ "segreto" 5 7))) ∧
    authenticateToken "segreto" 6 (some "Bearer") = .missing ∧
    (' ' ∉ (encodeJwt (jwtSign ⟨1, "a"⟩ "segreto" 5 7)).data →
      authenticateToken "segreto" 6
        (some (encodeJwt (jwtSign ⟨1, "a"⟩ "segreto" 5 7))) = .missing)) :=
  ⟨by decide,
    authenticateToken_ignores_scheme "segreto" 6 "Basic"
      (encodeJwt (jwtSign ⟨1, "a"⟩ "segreto" 5 7)) (by decide)⟩

end Toelettatura
